import Mathlib

set_option maxHeartbeats 1000000

open Matrix

/- Shallow embedding of the scikit-fda basis-smoothing and functional-PCA core:
     src/skfda/preprocessing/smoothing/_basis.py
     src/skfda/preprocessing/dim_reduction/projection/_fpca.py
     src/skfda/representation/basis/_fourier.py
   Machine floating-point arithmetic is modelled by exact arithmetic over ℚ
   (over ℝ for the trigonometric Fourier basis).  External dense-linear-algebra
   routines (scipy.linalg.cho_solve, scipy.linalg.cholesky, numpy.linalg.qr,
   numpy.linalg.eigh, numpy.linalg.solve) are modelled by their documented
   input/output contracts, which appear as hypotheses of the theorems. -/

/-- Python exception values raised by the embedded code paths. -/
inductive PyErr : Type
  | attributeError (msg : String)
  | valueError (msg : String)
  | indexError (msg : String)
  deriving DecidableEq

/-- The two non-raising branches of `BasisSmoother.fit_transform`
(src/skfda/preprocessing/smoothing/_basis.py lines 436-462): the penalized
least-squares solver strategies, or the direct square-system solve. -/
inductive SmootherBranch : Type
  | leastSquares
  | squareSolve
  deriving DecidableEq

/-- The message of the `ValueError` raised by `BasisSmoother.fit_transform`
(lines 459-462) when the system is underdetermined. -/
def underdeterminedMessage (nBasis nPoints : ℕ) : String :=
  "The number of basis functions (" ++ toString nBasis ++
    ") exceed the number of points to be smoothed (" ++ toString nPoints ++ ")."

/-- Branch dispatch of `BasisSmoother.fit_transform` (lines 436-462):
`if data_matrix.shape[0] > self.basis.n_basis or self.smoothing_parameter > 0`
take a least-squares solver strategy; `elif data_matrix.shape[0] ==
self.basis.n_basis` solve the square system `Φ C = Y` with `np.linalg.solve`;
otherwise raise `ValueError`.  `data_matrix.shape[0]` is the number of
observation points (the data matrix holds each sample in a column). -/
def fitTransformDispatch (nPoints nBasis : ℕ) (smoothingParameter : ℚ) :
    Except PyErr SmootherBranch :=
  if nPoints > nBasis ∨ smoothingParameter > 0 then .ok .leastSquares
  else if nPoints = nBasis then .ok .squareSolve
  else .error (.valueError (underdeterminedMessage nBasis nPoints))

/-- The assertion guarding `BasisSmoother.transform` (line 486):
`assert all([all(i == s) for i, s in zip(self.input_points_, X.sample_points)])`.
`input_points_` and `sample_points` are lists with one coordinate array per
domain dimension; `zip` truncates to the shorter list, and numpy elementwise
comparison of two coordinate arrays followed by `all` agrees with list
equality (arrays of different lengths compare unequal overall). -/
def transformPointsAssert (inputPoints samplePoints : List (List ℚ)) : Bool :=
  (inputPoints.zip samplePoints).all fun p => decide (p.1 = p.2)

/-- Modelled from the spec: `FDataBasis.to_grid` (the basis-represented wrapper
is outside src/).  §4.3: `fit_transform` returns "a re-discretized curve at the
configured output points"; re-discretizing a coefficient matrix (one sample per
row) evaluates each sample's basis expansion at the output points, i.e.
multiplies by the transpose of the basis-evaluation matrix (one basis function
per column, one output point per row). -/
def toGridValues {n k mOut : ℕ} (coefficients : Matrix (Fin n) (Fin k) ℚ)
    (basisValuesOut : Matrix (Fin mOut) (Fin k) ℚ) : Matrix (Fin n) (Fin mOut) ℚ :=
  coefficients * basisValuesOutᵀ

/-- `Fourier.__init__` adjustment of the basis count
(src/skfda/representation/basis/_fourier.py line 96): `n_basis += 1 - n_basis % 2`. -/
def fourierAdjustedNBasis (nBasis : ℕ) : ℕ :=
  nBasis + (1 - nBasis % 2)

/-- `Fourier._evaluate` (lines 110-140), as the value of the `i`-th basis
function at a point `t`.  The code stacks, for `n = 1, 2, ...`, the rows
`sin(nωt)` and `cos(nωt)` with `ω = 2π/period`, divides them by the
normalization constant `√(period/2)`, and prepends the constant row filled
with `1 / (√2 · √(period/2))`; after the prepend, row `2n-1` is the sine and
row `2n` the cosine of frequency `n`. -/
noncomputable def fourierBasisFunction (period : ℝ) (i : ℕ) (t : ℝ) : ℝ :=
  if i = 0 then
    1 / (Real.sqrt 2 * Real.sqrt (period / 2))
  else if i % 2 = 1 then
    Real.sin (2 * Real.pi / period * (((i + 1) / 2 : ℕ) : ℝ) * t) /
      Real.sqrt (period / 2)
  else
    Real.cos (2 * Real.pi / period * (((i / 2 : ℕ)) : ℝ) * t) /
      Real.sqrt (period / 2)

/-- Weights as stored on an `FPCAGrid` estimator: Python `None`, a Python
list, or a numpy array (the first `fit` stores a numpy array, line 413). -/
inductive PyWeights : Type
  | none
  | pylist (l : List ℚ)
  | nparray (l : List ℚ)
  deriving DecidableEq

/-- The numpy message for the ambiguous truth value of a multi-element array. -/
def ambiguousTruthMessage : String :=
  "The truth value of an array with more than one element is ambiguous. Use a.any() or a.all()"

/-- Python truthiness test `not self.weights`
(src/skfda/preprocessing/dim_reduction/projection/_fpca.py line 405):
`not None` is `True`, `not` of a list tests emptiness, and `not` of a numpy
array raises `ValueError` unless the array has exactly one element, whose
truthiness is its comparison with zero; `not` of an empty numpy array is
`True` (numpy of this era returns `False` truthiness with a deprecation
warning). -/
def pyWeightsNot : PyWeights → Except PyErr Bool
  | .none => .ok true
  | .pylist l => .ok l.isEmpty
  | .nparray l =>
    if l.length = 1 then .ok (decide (l.headD 0 = 0))
    else if l.length = 0 then .ok true
    else .error (.valueError ambiguousTruthMessage)

/-- `np.diff` on a one-dimensional array: consecutive differences. -/
def npDiff (l : List ℚ) : List ℚ :=
  List.zipWith (fun a b => b - a) l l.tail

/-- The default trapezoidal-rule weight vector built by `FPCAGrid.fit`
(lines 410-413): `differences = np.diff(X.sample_points[0])`;
`self.weights = [sum(differences[i:i + 2]) / 2 for i in
range(len(differences))]`;
`self.weights = np.concatenate(([differences[0] / 2], self.weights))`.
Accessing `differences[0]` raises `IndexError` when there are fewer than two
sample points. -/
def trapezoidalWeights (samplePoints : List ℚ) : Except PyErr (List ℚ) :=
  match npDiff samplePoints with
  | [] => .error (.indexError "index 0 is out of bounds for axis 0 with size 0")
  | d0 :: rest =>
    .ok (d0 / 2 ::
      (List.range (d0 :: rest).length).map fun i =>
        (((d0 :: rest).drop i).take 2).sum / 2)

/-- Modelled from the spec: the `mean` operation of the discretized and
basis-represented data wrappers (their classes are outside src/).  §4.4 says
centering "subtracts the cross-sample mean function"; for a stored matrix
with one sample per row that is the column-wise average of the rows. -/
def columnMeans (rows : List (List ℚ)) : List ℚ :=
  (List.range (rows.headD []).length).map fun j =>
    (rows.map fun r => r.getD j 0).sum / (rows.length : ℚ)

/-- The in-place centering `stored_matrix -= mean` performed by
`FPCABasis.fit` (line 213, on `X.coefficients`) and `FPCAGrid.fit` (line 402,
on the `np.squeeze` view of `X.data_matrix`): numpy `-=` broadcasts the mean
row over the samples and writes through the stored buffer. -/
def centerRows (rows : List (List ℚ)) : List (List ℚ) :=
  rows.map fun r => List.zipWith (fun a b => a - b) r (columnMeans rows)

/-- The state of an `FDataBasis` object that `FPCABasis.fit` reads or writes:
the basis size and the stored coefficient matrix (one sample per row). -/
structure FDataBasisState : Type where
  basisNBasis : ℕ
  coefficients : List (List ℚ)
  deriving DecidableEq

/-- `FDataBasis.n_samples`: the number of rows of the coefficient matrix. -/
def FDataBasisState.nSamples (X : FDataBasisState) : ℕ :=
  X.coefficients.length

/-- The configuration of an `FPCABasis` estimator relevant to the claims:
`n_components`, the target components basis (only its size matters for the
checks; `None` means the input's own basis is used), and `centering`. -/
structure FPCABasisEstimator : Type where
  nComponents : ℕ
  componentsBasisNBasis : Option ℕ
  centering : Bool
  deriving DecidableEq

/-- The state of an `FDataGrid` object that `FPCAGrid.fit` reads or writes:
the stored data matrix (one sample per row) and the sample points. -/
structure FDataGridState : Type where
  dataMatrix : List (List ℚ)
  samplePoints : List ℚ
  deriving DecidableEq

/-- `FDataGrid.n_samples`: the number of rows of the data matrix. -/
def FDataGridState.nSamples (X : FDataGridState) : ℕ :=
  X.dataMatrix.length

/-- `X.data_matrix.shape[1]`: the number of discretization points. -/
def FDataGridState.nPoints (X : FDataGridState) : ℕ :=
  (X.dataMatrix.headD []).length

/-- The configuration of an `FPCAGrid` estimator relevant to the claims. -/
structure FPCAGridEstimator : Type where
  nComponents : ℕ
  weights : PyWeights
  centering : Bool
  deriving DecidableEq

/-- Message of the `AttributeError` raised when `n_components` exceeds the
number of samples (_fpca.py lines 197-198 and 380-381). -/
def sampleSizeMessage : String :=
  "The sample size must be bigger than the number of components"

/-- Message of the `AttributeError` raised by `FPCABasis.fit` when
`n_components` exceeds the target basis size (lines 203-205). -/
def basisCapacityMessage : String :=
  "The number of components should be smaller than the number of attributes of target principal components\x27 basis."

/-- Message of the `AttributeError` raised by `FPCAGrid.fit` when
`n_components` exceeds the number of discretization points (lines 386-388). -/
def gridCapacityMessage : String :=
  "The number of components should be smaller than the number of discretization points of the functional data object."

/-- Message of the `ValueError` raised by the tuple unpacking
`n_samples, n_points_discretization = fd_data.shape` (line 394) when
`np.squeeze` has dropped a size-one sample or point axis. -/
def unpackMessage : String :=
  "not enough values to unpack (expected 2, got 1)"

/-- `FPCABasis.fit` (_fpca.py lines 166-275), embedded up to the observable
state the claims concern: the eager `n_components` validation (lines 196-205,
both `AttributeError`s) followed by the in-place centering of the input's
coefficient matrix (lines 209-213, `X.coefficients -= meanfd.coefficients`).
The rest of the body (gram matrix, Cholesky factor, triangular solves, the
sklearn PCA call) only reads this state, stores decomposition products on the
estimator, and raises no `AttributeError`; it is elided.  The result carries
the estimator and the post-call state of the input object. -/
def fpcaBasisFit (est : FPCABasisEstimator) (X : FDataBasisState) :
    Except PyErr (FPCABasisEstimator × FDataBasisState) :=
  if est.nComponents > X.nSamples then
    .error (.attributeError sampleSizeMessage)
  else if est.nComponents > est.componentsBasisNBasis.getD X.basisNBasis then
    .error (.attributeError basisCapacityMessage)
  else
    .ok (est, ⟨X.basisNBasis,
      if est.centering then centerRows X.coefficients else X.coefficients⟩)

/-- `FPCAGrid.fit` (_fpca.py lines 349-425), embedded up to the observable
state the claims concern: the eager `n_components` validation (lines 378-388),
the `np.squeeze`/shape unpacking of lines 391-394 (`np.squeeze` drops every
size-one axis, so a single sample or a single point makes the two-variable
unpacking raise `ValueError`; otherwise it returns a view of the stored
matrix), the in-place centering through that view (lines 398-402), and the
default-weight guard and computation (lines 405-413, which stores a numpy
array on `self.weights`).  The final sklearn PCA call is elided as for the
basis variant.  The result carries the estimator (with its possibly updated
`weights`) and the post-call state of the input object; when an exception is
raised the embedding carries only the exception (the centered post-state of a
call that later raises is not observed by any claim). -/
def fpcaGridFit (est : FPCAGridEstimator) (X : FDataGridState) :
    Except PyErr (FPCAGridEstimator × FDataGridState) :=
  if est.nComponents > X.nSamples then
    .error (.attributeError sampleSizeMessage)
  else if est.nComponents > X.nPoints then
    .error (.attributeError gridCapacityMessage)
  else if X.nSamples = 1 ∨ X.nPoints = 1 then
    .error (.valueError unpackMessage)
  else
    match pyWeightsNot est.weights with
    | .error e => .error e
    | .ok true =>
      match trapezoidalWeights X.samplePoints with
      | .error e => .error e
      | .ok ws =>
        .ok (⟨est.nComponents, .nparray ws, est.centering⟩,
          ⟨if est.centering then centerRows X.dataMatrix else X.dataMatrix,
           X.samplePoints⟩)
    | .ok false =>
      .ok (est,
        ⟨if est.centering then centerRows X.dataMatrix else X.dataMatrix,
         X.samplePoints⟩)

/-- Recognizes the configuration errors of spec §7: the eager
`AttributeError`s raised by the `n_components` bound checks. -/
def isConfigurationError {α : Type} : Except PyErr α → Bool
  | .error (.attributeError _) => true
  | _ => false

/-- `_Cholesky.__call__` (_basis.py lines 23-29): `common_matrix =
basis_values.T`, then `common_matrix @= weight_matrix` when a weight matrix
is given. -/
def choleskyCommonMatrix {m k : ℕ} (basisValues : Matrix (Fin m) (Fin k) ℚ)
    (weightMatrix : Option (Matrix (Fin m) (Fin m) ℚ)) :
    Matrix (Fin k) (Fin m) ℚ :=
  match weightMatrix with
  | Option.none => basisValuesᵀ
  | some w => basisValuesᵀ * w

/-- `_Cholesky.__call__` (lines 32-36): `left_matrix = common_matrix @
basis_values` plus the roughness penalty.  `compute_penalty_matrix` has
already scaled the penalty by the smoothing parameter; both
`fit_transform` (lines 407-410) and `_coef_matrix` (lines 344-349) call it
with the same arguments, so the same penalty matrix appears in every
strategy. -/
def choleskyLeftMatrix {m k : ℕ} (basisValues : Matrix (Fin m) (Fin k) ℚ)
    (weightMatrix : Option (Matrix (Fin m) (Fin m) ℚ))
    (penaltyMatrix : Matrix (Fin k) (Fin k) ℚ) : Matrix (Fin k) (Fin k) ℚ :=
  choleskyCommonMatrix basisValues weightMatrix * basisValues + penaltyMatrix

/-- `_Cholesky.__call__` (line 31): `right_matrix = common_matrix @
data_matrix`. -/
def choleskyRightMatrix {m k n : ℕ} (basisValues : Matrix (Fin m) (Fin k) ℚ)
    (weightMatrix : Option (Matrix (Fin m) (Fin m) ℚ))
    (dataMatrix : Matrix (Fin m) (Fin n) ℚ) : Matrix (Fin k) (Fin n) ℚ :=
  choleskyCommonMatrix basisValues weightMatrix * dataMatrix

/-- `_QR.__call__` (lines 54-58): when a weight matrix is given, the basis
values and the data are premultiplied by the factor returned by
`scipy.linalg.cholesky(weight_matrix)` (an upper-triangular `U` with
`Uᵀ U = W`). -/
def qrWeighted {m p : ℕ} (upperFactor : Option (Matrix (Fin m) (Fin m) ℚ))
    (A : Matrix (Fin m) (Fin p) ℚ) : Matrix (Fin m) (Fin p) ℚ :=
  match upperFactor with
  | Option.none => A
  | some u => u * A

/-- Contract tying the optional weight matrix to the optional upper Cholesky
factor the code computes from it: both absent, or both present with
`Uᵀ U = W` (the contract of `scipy.linalg.cholesky`). -/
def weightCholeskyContract {m : ℕ} :
    Option (Matrix (Fin m) (Fin m) ℚ) → Option (Matrix (Fin m) (Fin m) ℚ) → Prop
  | Option.none, Option.none => True
  | some w, some u => uᵀ * u = w
  | _, _ => False

/-- `_QR.__call__` (line 68): `penalty_matrix = v @ np.diag(np.sqrt(w))`,
where `w, v` are the (order-flipped) eigendecomposition of the penalty from
`np.linalg.eigh` and `w` was clipped by `np.maximum(w, 0)`; `sqrtw` stands
for the entrywise square root of the clipped eigenvalues (see the contract
hypotheses of the consistency theorem). -/
def qrPenaltyRoot {k : ℕ} (v : Matrix (Fin k) (Fin k) ℚ) (sqrtw : Fin k → ℚ) :
    Matrix (Fin k) (Fin k) ℚ :=
  v * Matrix.diagonal sqrtw

/-- `_QR.__call__` (lines 71-74): the augmented basis matrix, stacking the
transpose of the penalty square root below the (weighted) basis values. -/
def qrAugmentedBasis {m k : ℕ} (basisValues : Matrix (Fin m) (Fin k) ℚ)
    (penaltyRoot : Matrix (Fin k) (Fin k) ℚ) :
    Matrix (Fin m ⊕ Fin k) (Fin k) ℚ :=
  Matrix.fromRows basisValues penaltyRootᵀ

/-- `_QR.__call__` (lines 76-79): the data matrix padded with zero rows,
`np.pad(data_matrix, ((0, len(v)), (0, 0)))`. -/
def qrPaddedData {m k n : ℕ} (dataMatrix : Matrix (Fin m) (Fin n) ℚ) :
    Matrix (Fin m ⊕ Fin k) (Fin n) ℚ :=
  Matrix.fromRows dataMatrix 0

/-- `_Matrix.transform` with `return_basis=True` (lines 116-118):
`coefficients = X.data_matrix.reshape((X.n_samples, -1)) @
estimator._cached_coef_matrix.T`, where the cached mapping matrix was
computed by `_coef_matrix` as the solution `M` of `(ΦᵀWΦ + penalty) M = ΦᵀW`
(lines 329-356).  Our `dataMatrix` convention holds one sample per column, so
the reshaped row-major data is its transpose. -/
def matrixMethodCoefficients {m k n : ℕ} (dataMatrix : Matrix (Fin m) (Fin n) ℚ)
    (coefMatrix : Matrix (Fin k) (Fin m) ℚ) : Matrix (Fin n) (Fin k) ℚ :=
  dataMatrixᵀ * coefMatrixᵀ

/-- The attribute names defined by the `_Matrix` solver class (lines 98-127):
its class body defines exactly `fit`, `fit_transform`, `__call__` and
`transform`, and the class has no base class, so these are the only
attributes an instance resolves. -/
def matrixSolverAttributes : List String :=
  ["fit", "fit_transform", "__call__", "transform"]

/-- The attribute lookup `self.hat_matrix` performed by `_Matrix.transform`
(line 126) on the `_Matrix` instance itself: `some` when the class resolves
the attribute, `none` when Python raises `AttributeError`. -/
def matrixSolverHatMatrixLookup : Option Unit :=
  if matrixSolverAttributes.contains "hat_matrix" then some () else Option.none

/-- `_Matrix.transform` (lines 115-127).  With `estimator.return_basis` true
it multiplies the new data by the transpose of the cached mapping matrix and
wraps the result in an `FDataBasis` (`Sum.inl`); otherwise it evaluates
`self.hat_matrix() @ X.data_matrix`, whose first step is the attribute lookup
`self.hat_matrix` on the solver instance — the re-discretized `FDataGrid`
result that branch would build is represented by `Sum.inr ()` and is never
produced, because the lookup fails. -/
def matrixMethodTransform {m k n : ℕ} (returnBasis : Bool)
    (cachedCoefMatrix : Matrix (Fin k) (Fin m) ℚ)
    (dataMatrix : Matrix (Fin m) (Fin n) ℚ) :
    Except PyErr (Matrix (Fin n) (Fin k) ℚ ⊕ Unit) :=
  if returnBasis then
    .ok (.inl (matrixMethodCoefficients dataMatrix cachedCoefMatrix))
  else
    match matrixSolverHatMatrixLookup with
    | some _ => .ok (.inr ())
    | Option.none =>
      .error (.attributeError
        "\x27_Matrix\x27 object has no attribute \x27hat_matrix\x27")

/-- C4 (counterexample).  The claim states that every sample with fewer
observation points than basis functions makes `fit_transform` fail with the
underdetermined-system error.  With 2 points, 3 basis functions and the
default `smoothing_parameter = 1 > 0`, the first branch of the dispatch is
taken and a least-squares strategy runs: no underdetermined error is raised,
so the claim as stated is false. -/
theorem underdetermined_error_counterexample :
    2 < 3 ∧ fitTransformDispatch 2 3 1 = .ok .leastSquares := by
  constructor
  · decide
  · rfl

/-- C4 (amended).  When the number of observation points is strictly less than
the basis size, `fit_transform` raises the underdetermined-system `ValueError`
(stating that the number of basis functions exceeds the number of points)
exactly when no positive smoothing parameter is set; with a positive smoothing
parameter the penalized least-squares branch is taken instead and the
underdetermined error is not raised. -/
theorem underdetermined_error_requires_no_smoothing
    (nPoints nBasis : ℕ) (lam : ℚ) (hlt : nPoints < nBasis) :
    (¬ 0 < lam →
      fitTransformDispatch nPoints nBasis lam =
        .error (.valueError (underdeterminedMessage nBasis nPoints))) ∧
    (0 < lam → fitTransformDispatch nPoints nBasis lam = .ok .leastSquares) := by
  constructor
  · intro hlam
    have hcond : ¬ (nPoints > nBasis ∨ lam > 0) := by
      rintro (h | h)
      · omega
      · exact hlam h
    have hne : nPoints ≠ nBasis := by omega
    simp [fitTransformDispatch, hcond, hne]
  · intro hlam
    have hcond : nPoints > nBasis ∨ lam > 0 := Or.inr hlam
    simp [fitTransformDispatch, hcond]

/-- C4 (witness for the amended theorem): at 2 points, 3 basis functions, the
error is raised for `smoothing_parameter = 0` and not for `= 1`. -/
theorem underdetermined_error_requires_no_smoothing_witness :
    fitTransformDispatch 2 3 0 =
      .error (.valueError (underdeterminedMessage 3 2)) ∧
    fitTransformDispatch 2 3 1 = .ok .leastSquares := by
  constructor
  · exact (underdetermined_error_requires_no_smoothing 2 3 0 (by decide)).1 (by decide)
  · exact (underdetermined_error_requires_no_smoothing 2 3 1 (by decide)).2 (by decide)

/-- C6 (counterexample).  The claim states that transforming data whose sample
points differ from the recorded input points always fails the assertion.  But
`zip` truncates to the shorter list of per-dimension grids: recorded points
`[[0, 1]]` and new sample points `[[0, 1], [2, 3]]` differ, yet every zipped
pair agrees, so the assertion passes and smoothing proceeds silently. -/
theorem transform_assert_counterexample :
    ([[(0 : ℚ), 1]] ≠ [[(0 : ℚ), 1], [2, 3]]) ∧
    transformPointsAssert [[(0 : ℚ), 1]] [[(0 : ℚ), 1], [2, 3]] = true := by
  constructor
  · decide
  · rfl

/-- C6 (amended).  For data with the same number of domain dimensions as the
data recorded at fit time, the assertion in `BasisSmoother.transform` passes
exactly when the sample points equal the recorded input points: any difference
fails the assertion (reported as a caller error) and equality lets smoothing
proceed.  (The pointwise comparison is only over zipped pairs, so grids of
differing dimensionality are compared only up to the shorter list.) -/
theorem transform_assert_same_dims_iff
    (inputPoints samplePoints : List (List ℚ))
    (hlen : inputPoints.length = samplePoints.length) :
    transformPointsAssert inputPoints samplePoints = true ↔
      inputPoints = samplePoints := by
  induction inputPoints generalizing samplePoints with
  | nil =>
    cases samplePoints with
    | nil => simp [transformPointsAssert]
    | cons b bs => simp at hlen
  | cons a as ih =>
    cases samplePoints with
    | nil => simp at hlen
    | cons b bs =>
      have hlen' : as.length = bs.length := by simpa using hlen
      have htail := ih bs hlen'
      simp only [transformPointsAssert, List.zip_cons_cons, List.all_cons,
        Bool.and_eq_true, decide_eq_true_eq] at htail ⊢
      constructor
      · rintro ⟨h1, h2⟩
        rw [h1, htail.mp h2]
      · intro h
        injection h with h1 h2
        exact ⟨h1, htail.mpr h2⟩

/-- C6 (witness for the amended theorem): with equal recorded and supplied
points of the same dimensionality, the assertion passes. -/
theorem transform_assert_same_dims_iff_witness :
    transformPointsAssert [[(0 : ℚ), 1, 2]] [[(0 : ℚ), 1, 2]] = true :=
  (transform_assert_same_dims_iff [[(0 : ℚ), 1, 2]] [[(0 : ℚ), 1, 2]] rfl).mpr rfl

/-- C7.  When the number of observation points equals the basis size and no
smoothing is requested (`smoothing_parameter` not greater than 0),
`fit_transform` dispatches to the direct square-system solve
`np.linalg.solve(basis_values, data_matrix)` rather than a least-squares
strategy; and any solution `C` of the square system `Φ C = Y` (the contract of
`np.linalg.solve`) re-discretizes at the input points exactly to the original
data values, so the round trip reproduces the input. -/
theorem square_system_direct_solve_roundtrip
    (k nSamples : ℕ) (lam : ℚ)
    (Φ : Matrix (Fin k) (Fin k) ℚ)
    (Y C : Matrix (Fin k) (Fin nSamples) ℚ)
    (hlam : ¬ 0 < lam) (hC : Φ * C = Y) :
    fitTransformDispatch k k lam = .ok .squareSolve ∧
    toGridValues Cᵀ Φ = Yᵀ := by
  constructor
  · unfold fitTransformDispatch
    rw [if_neg, if_pos rfl]
    rintro (h | h)
    · exact absurd h (lt_irrefl k)
    · exact hlam h
  · unfold toGridValues
    rw [← Matrix.transpose_mul, hC]

/-- C7 (witness): a concrete 1-basis, 1-point, 1-sample instance with
`Φ = [2]`, `Y = [6]`, solution `C = [3]` and zero smoothing parameter. -/
theorem square_system_direct_solve_roundtrip_witness :
    fitTransformDispatch 1 1 0 = .ok .squareSolve ∧
    toGridValues (!![(3 : ℚ)])ᵀ !![(2 : ℚ)] = (!![(6 : ℚ)])ᵀ :=
  square_system_direct_solve_roundtrip 1 1 0 !![(2 : ℚ)] !![(6 : ℚ)] !![(3 : ℚ)]
    (by decide) (by norm_num [Matrix.mul_apply])

/-- C8.  Constructing a Fourier basis with an even `n_basis` silently
increments it by one (4 becomes 5, the odd-count invariant), and at every
evaluation point the 0th Fourier basis function equals the constant
`1/√2` divided by the period-derived normalization constant `√(T/2)`. -/
theorem fourier_odd_invariant_and_constant_value :
    (∀ nb : ℕ, nb % 2 = 0 → fourierAdjustedNBasis nb = nb + 1) ∧
    fourierAdjustedNBasis 4 = 5 ∧
    (∀ period t : ℝ,
      fourierBasisFunction period 0 t =
        1 / Real.sqrt 2 / Real.sqrt (period / 2)) := by
  refine ⟨fun nb h => ?_, rfl, fun period t => ?_⟩
  · simp [fourierAdjustedNBasis, h]
  · unfold fourierBasisFunction
    rw [if_pos rfl, div_div]

/-- C8 (witness): the even-count conjunct applied at the concrete even input 4. -/
theorem fourier_odd_invariant_and_constant_value_witness :
    fourierAdjustedNBasis 4 = 4 + 1 :=
  fourier_odd_invariant_and_constant_value.1 4 rfl

/-- Helper: `pyWeightsNot` either returns a Boolean or raises exactly the
ambiguous-truth-value `ValueError` (never an `AttributeError`). -/
theorem pyWeightsNot_cases (w : PyWeights) :
    (∃ b, pyWeightsNot w = .ok b) ∨
      pyWeightsNot w = .error (.valueError ambiguousTruthMessage) := by
  cases w with
  | none => exact .inl ⟨true, rfl⟩
  | pylist l => exact .inl ⟨l.isEmpty, rfl⟩
  | nparray l =>
    by_cases h1 : l.length = 1
    · exact .inl ⟨_, by simp only [pyWeightsNot]; rw [if_pos h1]⟩
    · by_cases h0 : l.length = 0
      · exact .inl ⟨true, by simp only [pyWeightsNot]; rw [if_neg h1, if_pos h0]⟩
      · exact .inr (by simp only [pyWeightsNot]; rw [if_neg h1, if_neg h0])

/-- Helper: `trapezoidalWeights` either returns a list or raises exactly the
`IndexError` (never an `AttributeError`). -/
theorem trapezoidalWeights_cases (pts : List ℚ) :
    (∃ ws, trapezoidalWeights pts = .ok ws) ∨
      trapezoidalWeights pts =
        .error (.indexError "index 0 is out of bounds for axis 0 with size 0") := by
  unfold trapezoidalWeights
  rcases hd : npDiff pts with _ | ⟨d0, rest⟩
  · exact .inr rfl
  · exact .inl ⟨_, rfl⟩

/-- Helper: a successful `fpcaGridFit` with unset weights stores the
trapezoidal weight vector, as a numpy array, on the estimator. -/
theorem fpcaGridFit_ok_weights
    (est : FPCAGridEstimator) (X : FDataGridState)
    (out : FPCAGridEstimator × FDataGridState)
    (hnone : est.weights = PyWeights.none)
    (hfit : fpcaGridFit est X = .ok out) :
    ∃ ws, trapezoidalWeights X.samplePoints = .ok ws ∧
      out.1.weights = PyWeights.nparray ws := by
  unfold fpcaGridFit at hfit
  rw [hnone] at hfit
  split at hfit
  · simp at hfit
  split at hfit
  · simp at hfit
  split at hfit
  · simp at hfit
  simp only [pyWeightsNot] at hfit
  cases htw : trapezoidalWeights X.samplePoints with
  | error e =>
    rw [htw] at hfit
    simp at hfit
  | ok ws =>
    rw [htw] at hfit
    refine ⟨ws, rfl, ?_⟩
    have h := Except.ok.inj hfit
    rw [← h]

/-- C5.  For both FPCA variants, `fit` eagerly validates `n_components`:
requesting more components than samples raises the sample-size
`AttributeError`, requesting more than the representational capacity (target
basis size for `FPCABasis`, discretization length for `FPCAGrid`) raises the
capacity `AttributeError` — in both cases the error is returned before the
centering/decomposition part of the body runs — and when `n_components` is
within both bounds, `fit` never produces a configuration error (any later
failure is a `ValueError`/`IndexError`, not one of the eager
`AttributeError`s). -/
theorem fpca_n_components_validation
    (estB : FPCABasisEstimator) (XB : FDataBasisState)
    (estG : FPCAGridEstimator) (XG : FDataGridState) :
    (estB.nComponents > XB.nSamples →
      fpcaBasisFit estB XB = .error (.attributeError sampleSizeMessage)) ∧
    (estB.nComponents ≤ XB.nSamples →
      estB.nComponents > estB.componentsBasisNBasis.getD XB.basisNBasis →
      fpcaBasisFit estB XB = .error (.attributeError basisCapacityMessage)) ∧
    (estB.nComponents ≤ XB.nSamples →
      estB.nComponents ≤ estB.componentsBasisNBasis.getD XB.basisNBasis →
      isConfigurationError (fpcaBasisFit estB XB) = false) ∧
    (estG.nComponents > XG.nSamples →
      fpcaGridFit estG XG = .error (.attributeError sampleSizeMessage)) ∧
    (estG.nComponents ≤ XG.nSamples →
      estG.nComponents > XG.nPoints →
      fpcaGridFit estG XG = .error (.attributeError gridCapacityMessage)) ∧
    (estG.nComponents ≤ XG.nSamples →
      estG.nComponents ≤ XG.nPoints →
      isConfigurationError (fpcaGridFit estG XG) = false) := by
  refine ⟨fun h1 => ?_, fun h1 h2 => ?_, fun h1 h2 => ?_,
    fun h1 => ?_, fun h1 h2 => ?_, fun h1 h2 => ?_⟩
  · unfold fpcaBasisFit
    rw [if_pos h1]
  · unfold fpcaBasisFit
    rw [if_neg (by omega), if_pos h2]
  · unfold fpcaBasisFit
    rw [if_neg (by omega), if_neg (by omega)]
    rfl
  · unfold fpcaGridFit
    rw [if_pos h1]
  · unfold fpcaGridFit
    rw [if_neg (by omega), if_pos h2]
  · unfold fpcaGridFit
    rw [if_neg (by omega), if_neg (by omega)]
    by_cases h3 : XG.nSamples = 1 ∨ XG.nPoints = 1
    · rw [if_pos h3]
      rfl
    · rw [if_neg h3]
      rcases pyWeightsNot_cases estG.weights with ⟨b, hb⟩ | hb
      · rw [hb]
        cases b
        · rfl
        · rcases trapezoidalWeights_cases XG.samplePoints with ⟨ws, hw⟩ | hw
          · rw [hw]
            rfl
          · rw [hw]
            rfl
      · rw [hb]
        rfl

/-- C5 (witness): concrete instances of all six conjuncts — too many
components for the sample size and for the capacity on each variant raise the
respective configuration error, and an in-bounds request raises none. -/
theorem fpca_n_components_validation_witness :
    fpcaBasisFit ⟨5, Option.none, true⟩ ⟨3, [[1, 2], [3, 4]]⟩ =
      .error (.attributeError sampleSizeMessage) ∧
    fpcaBasisFit ⟨3, Option.none, true⟩ ⟨2, [[1, 2], [3, 4], [5, 6]]⟩ =
      .error (.attributeError basisCapacityMessage) ∧
    isConfigurationError
      (fpcaBasisFit ⟨1, Option.none, true⟩ ⟨2, [[1, 0], [0, 2]]⟩) = false ∧
    fpcaGridFit ⟨5, PyWeights.none, true⟩ ⟨[[1, 2], [3, 4]], [0, 1]⟩ =
      .error (.attributeError sampleSizeMessage) ∧
    fpcaGridFit ⟨2, PyWeights.none, true⟩ ⟨[[1], [2], [3]], [0]⟩ =
      .error (.attributeError gridCapacityMessage) ∧
    isConfigurationError
      (fpcaGridFit ⟨1, PyWeights.none, true⟩ ⟨[[1, 0], [0, 2]], [0, 1]⟩) = false := by
  refine ⟨?_, ?_, ?_, ?_, ?_, ?_⟩
  · exact (fpca_n_components_validation ⟨5, Option.none, true⟩ ⟨3, [[1, 2], [3, 4]]⟩
      ⟨0, PyWeights.none, true⟩ ⟨[], []⟩).1 (by decide)
  · exact (fpca_n_components_validation ⟨3, Option.none, true⟩
      ⟨2, [[1, 2], [3, 4], [5, 6]]⟩ ⟨0, PyWeights.none, true⟩ ⟨[], []⟩).2.1
      (by decide) (by decide)
  · exact (fpca_n_components_validation ⟨1, Option.none, true⟩ ⟨2, [[1, 0], [0, 2]]⟩
      ⟨0, PyWeights.none, true⟩ ⟨[], []⟩).2.2.1 (by decide) (by decide)
  · exact (fpca_n_components_validation ⟨0, Option.none, true⟩ ⟨0, []⟩
      ⟨5, PyWeights.none, true⟩ ⟨[[1, 2], [3, 4]], [0, 1]⟩).2.2.2.1 (by decide)
  · exact (fpca_n_components_validation ⟨0, Option.none, true⟩ ⟨0, []⟩
      ⟨2, PyWeights.none, true⟩ ⟨[[1], [2], [3]], [0]⟩).2.2.2.2.1
      (by decide) (by decide)
  · exact (fpca_n_components_validation ⟨0, Option.none, true⟩ ⟨0, []⟩
      ⟨1, PyWeights.none, true⟩ ⟨[[1, 0], [0, 2]], [0, 1]⟩).2.2.2.2.2
      (by decide) (by decide)

/-- C2 (counterexample).  The claim states that `fit` with centering enabled
leaves the input object's stored matrix unchanged.  On the concrete sample
with coefficient/data matrix `[[1, 0], [3, 2]]` (mean `[2, 1]`), both
`FPCABasis.fit` and `FPCAGrid.fit` succeed and afterwards the input object
holds the centered matrix `[[-1, -1], [1, 1]]`, not the original: the
in-place `-=` writes through the stored buffer. -/
theorem fpca_centering_preserves_input_counterexample :
    fpcaBasisFit ⟨1, Option.none, true⟩ ⟨2, [[1, 0], [3, 2]]⟩ =
      .ok (⟨1, Option.none, true⟩, ⟨2, [[-1, -1], [1, 1]]⟩) ∧
    ([[(-1 : ℚ), -1], [1, 1]] ≠ [[(1 : ℚ), 0], [3, 2]]) ∧
    fpcaGridFit ⟨1, PyWeights.none, true⟩ ⟨[[1, 0], [3, 2]], [0, 1]⟩ =
      .ok (⟨1, PyWeights.nparray [1/2, 1/2], true⟩, ⟨[[-1, -1], [1, 1]], [0, 1]⟩) := by
  refine ⟨?_, by norm_num, ?_⟩
  · norm_num [fpcaBasisFit, FDataBasisState.nSamples, centerRows, columnMeans,
      List.range_succ]
  · norm_num [fpcaGridFit, FDataGridState.nSamples, FDataGridState.nPoints,
      pyWeightsNot, trapezoidalWeights, npDiff, centerRows, columnMeans,
      List.range_succ]

/-- C2 (amended).  What the code actually does: whenever `fit` succeeds, the
input object's stored matrix afterwards equals the centered matrix when
centering is enabled (the in-place `-=` subtraction of the cross-sample mean
writes through the stored buffer of the passed object), and is unchanged only
when centering is disabled.  This holds for both variants. -/
theorem fpca_centering_mutates_input
    (estB : FPCABasisEstimator) (XB : FDataBasisState)
    (estG : FPCAGridEstimator) (XG : FDataGridState)
    (outB : FPCABasisEstimator × FDataBasisState)
    (outG : FPCAGridEstimator × FDataGridState)
    (hB : fpcaBasisFit estB XB = .ok outB)
    (hG : fpcaGridFit estG XG = .ok outG) :
    outB.2.coefficients =
      (if estB.centering = true then centerRows XB.coefficients
       else XB.coefficients) ∧
    outG.2.dataMatrix =
      (if estG.centering = true then centerRows XG.dataMatrix
       else XG.dataMatrix) := by
  constructor
  · unfold fpcaBasisFit at hB
    split at hB
    · simp at hB
    split at hB
    · simp at hB
    have h := Except.ok.inj hB
    rw [← h]
  · unfold fpcaGridFit at hG
    split at hG
    · simp at hG
    split at hG
    · simp at hG
    split at hG
    · simp at hG
    split at hG
    · simp at hG
    · split at hG
      · simp at hG
      · have h := Except.ok.inj hG
        rw [← h]
    · have h := Except.ok.inj hG
      rw [← h]

/-- C2 (witness for the amended theorem): the concrete two-sample input with
centering enabled on both variants; the post-call matrices are the centered
ones. -/
theorem fpca_centering_mutates_input_witness :
    (((⟨1, Option.none, true⟩ : FPCABasisEstimator),
        (⟨2, [[(-1 : ℚ), -1], [1, 1]]⟩ : FDataBasisState)).2.coefficients =
      if ((⟨1, Option.none, true⟩ : FPCABasisEstimator)).centering = true then
        centerRows [[(1 : ℚ), 0], [3, 2]]
      else [[(1 : ℚ), 0], [3, 2]]) ∧
    (((⟨1, PyWeights.nparray [1/2, 1/2], true⟩ : FPCAGridEstimator),
        (⟨[[(-1 : ℚ), -1], [1, 1]], [0, 1]⟩ : FDataGridState)).2.dataMatrix =
      if ((⟨1, PyWeights.nparray [1/2, 1/2], true⟩ : FPCAGridEstimator)).centering = true then
        centerRows [[(1 : ℚ), 0], [3, 2]]
      else [[(1 : ℚ), 0], [3, 2]]) :=
  fpca_centering_mutates_input
    ⟨1, Option.none, true⟩ ⟨2, [[1, 0], [3, 2]]⟩
    ⟨1, PyWeights.none, true⟩ ⟨[[1, 0], [3, 2]], [0, 1]⟩
    (⟨1, Option.none, true⟩, ⟨2, [[-1, -1], [1, 1]]⟩)
    (⟨1, PyWeights.nparray [1/2, 1/2], true⟩, ⟨[[-1, -1], [1, 1]], [0, 1]⟩)
    (by norm_num [fpcaBasisFit, FDataBasisState.nSamples, centerRows,
      columnMeans, List.range_succ])
    (by norm_num [fpcaGridFit, FDataGridState.nSamples, FDataGridState.nPoints,
      pyWeightsNot, trapezoidalWeights, npDiff, centerRows, columnMeans,
      List.range_succ])

/-- Helper: element `i` of a mapped range. -/
theorem getD_range_map (f : ℕ → ℚ) (n i : ℕ) (h : i < n) :
    ((List.range n).map f).getD i 0 = f i := by
  rw [List.getD_eq_getElem?_getD, List.getElem?_map, List.getElem?_range h]
  rfl

/-- Helper: `np.diff` shortens the array by one. -/
theorem npDiff_length (l : List ℚ) : (npDiff l).length = l.length - 1 := by
  unfold npDiff
  rw [List.length_zipWith, List.length_tail]
  omega

/-- Helper: element `j` of `np.diff` is the width of the `j`-th interval. -/
theorem npDiff_getD : ∀ (l : List ℚ) (j : ℕ), j + 1 < l.length →
    (npDiff l).getD j 0 = l.getD (j + 1) 0 - l.getD j 0
  | [], j, h => by simp at h
  | [a], j, h => by simp at h
  | a :: b :: t, 0, _ => by simp [npDiff]
  | a :: b :: t, j + 1, h => by
    have ih := npDiff_getD (b :: t) j (by simpa using h)
    simpa [npDiff] using ih

/-- Helper: the sum of a two-element slice, away from the end. -/
theorem dropTakeTwo_sum : ∀ (d : List ℚ) (i : ℕ), i + 1 < d.length →
    ((d.drop i).take 2).sum = d.getD i 0 + d.getD (i + 1) 0
  | [], i, h => by simp at h
  | [a], i, h => by simp at h
  | a :: b :: t, 0, _ => by simp
  | a :: b :: t, i + 1, h => by
    have ih := dropTakeTwo_sum (b :: t) i (by simpa using h)
    simpa using ih

/-- Helper: the sum of the final one-element slice. -/
theorem dropTakeTwo_sum_last : ∀ (d : List ℚ) (i : ℕ), i + 1 = d.length →
    ((d.drop i).take 2).sum = d.getD i 0
  | [], i, h => by simp at h
  | [a], 0, _ => by simp
  | [a], i + 1, h => by
    simp only [List.length_cons, List.length_nil] at h
    omega
  | a :: b :: t, 0, h => by
    simp only [List.length_cons] at h
    omega
  | a :: b :: t, i + 1, h => by
    have ih := dropTakeTwo_sum_last (b :: t) i (by
      simp only [List.length_cons] at h ⊢
      omega)
    simpa using ih

/-- Helper: the value and pointwise description of the trapezoidal weight
vector for at least two sample points. -/
theorem trapezoidalWeights_props (pts : List ℚ) (h2 : 2 ≤ pts.length) :
    ∃ ws, trapezoidalWeights pts = .ok ws ∧
      ws.length = pts.length ∧
      ws.getD 0 0 = (pts.getD 1 0 - pts.getD 0 0) / 2 ∧
      ws.getD (pts.length - 1) 0 =
        (pts.getD (pts.length - 1) 0 - pts.getD (pts.length - 2) 0) / 2 ∧
      (∀ j, 1 ≤ j → j ≤ pts.length - 2 →
        ws.getD j 0 =
          ((pts.getD j 0 - pts.getD (j - 1) 0) +
            (pts.getD (j + 1) 0 - pts.getD j 0)) / 2) := by
  have hlen0 : (npDiff pts).length = pts.length - 1 := npDiff_length pts
  rcases hnd : npDiff pts with _ | ⟨d0, rest⟩
  · rw [hnd] at hlen0
    simp only [List.length_nil] at hlen0
    omega
  · have hlen : (d0 :: rest).length = pts.length - 1 := by rw [← hnd]; exact hlen0
    refine ⟨d0 / 2 ::
      (List.range (d0 :: rest).length).map fun i =>
        (((d0 :: rest).drop i).take 2).sum / 2, ?_, ?_, ?_, ?_, ?_⟩
    · unfold trapezoidalWeights
      rw [hnd]
    · simp only [List.length_cons, List.length_map, List.length_range] at hlen ⊢
      omega
    · rw [List.getD_cons_zero]
      have h0 : (npDiff pts).getD 0 0 = pts.getD 1 0 - pts.getD 0 0 :=
        npDiff_getD pts 0 (by omega)
      rw [hnd] at h0
      rw [List.getD_cons_zero] at h0
      rw [h0]
    · have hj : pts.length - 1 = (pts.length - 2) + 1 := by omega
      rw [hj, List.getD_cons_succ]
      have hlt : pts.length - 2 < (d0 :: rest).length := by omega
      rw [getD_range_map _ _ _ hlt]
      have hsum : (((d0 :: rest).drop (pts.length - 2)).take 2).sum =
          (d0 :: rest).getD (pts.length - 2) 0 :=
        dropTakeTwo_sum_last (d0 :: rest) (pts.length - 2) (by omega)
      rw [hsum]
      have hd : (npDiff pts).getD (pts.length - 2) 0 =
          pts.getD (pts.length - 2 + 1) 0 - pts.getD (pts.length - 2) 0 :=
        npDiff_getD pts (pts.length - 2) (by omega)
      rw [hnd] at hd
      rw [hd]
    · intro j hj1 hj2
      obtain ⟨j', rfl⟩ : ∃ j', j = j' + 1 := ⟨j - 1, by omega⟩
      rw [List.getD_cons_succ]
      have hlt : j' < (d0 :: rest).length := by omega
      rw [getD_range_map _ _ _ hlt]
      have hsum : (((d0 :: rest).drop j').take 2).sum =
          (d0 :: rest).getD j' 0 + (d0 :: rest).getD (j' + 1) 0 :=
        dropTakeTwo_sum (d0 :: rest) j' (by omega)
      rw [hsum]
      have hd1 : (npDiff pts).getD j' 0 =
          pts.getD (j' + 1) 0 - pts.getD j' 0 :=
        npDiff_getD pts j' (by omega)
      have hd2 : (npDiff pts).getD (j' + 1) 0 =
          pts.getD (j' + 1 + 1) 0 - pts.getD (j' + 1) 0 :=
        npDiff_getD pts (j' + 1) (by omega)
      rw [hnd] at hd1 hd2
      rw [hd1, hd2]
      have hj' : j' + 1 - 1 = j' := by omega
      rw [hj']

/-- C9.  When `FPCAGrid` is constructed without weights, a successful `fit`
stores on the estimator the default quadrature weight vector built by the
trapezoidal rule over the sample points: one entry per discretization point,
each boundary point getting half the width of its single adjacent interval
and each interior point half the sum of its two adjacent interval widths. -/
theorem default_weights_trapezoidal_rule
    (est : FPCAGridEstimator) (X : FDataGridState)
    (out : FPCAGridEstimator × FDataGridState)
    (hnone : est.weights = PyWeights.none)
    (h2 : 2 ≤ X.samplePoints.length)
    (hfit : fpcaGridFit est X = .ok out) :
    ∃ ws, out.1.weights = PyWeights.nparray ws ∧
      ws.length = X.samplePoints.length ∧
      ws.getD 0 0 =
        (X.samplePoints.getD 1 0 - X.samplePoints.getD 0 0) / 2 ∧
      ws.getD (X.samplePoints.length - 1) 0 =
        (X.samplePoints.getD (X.samplePoints.length - 1) 0 -
          X.samplePoints.getD (X.samplePoints.length - 2) 0) / 2 ∧
      (∀ j, 1 ≤ j → j ≤ X.samplePoints.length - 2 →
        ws.getD j 0 =
          ((X.samplePoints.getD j 0 - X.samplePoints.getD (j - 1) 0) +
            (X.samplePoints.getD (j + 1) 0 - X.samplePoints.getD j 0)) / 2) := by
  obtain ⟨ws, htw, hw⟩ := fpcaGridFit_ok_weights est X out hnone hfit
  obtain ⟨ws', htw', hprops⟩ := trapezoidalWeights_props X.samplePoints h2
  have hws : ws = ws' := by
    rw [htw] at htw'
    exact Except.ok.inj htw'
  rw [hws] at hw
  exact ⟨ws', hw, hprops⟩

/-- C9 (witness): on sample points `[0, 1, 3]`, the first fit stores the
trapezoidal vector `[1/2, 3/2, 1]`. -/
theorem default_weights_trapezoidal_rule_witness :
    ∃ ws : List ℚ, PyWeights.nparray [1/2, 3/2, 1] = PyWeights.nparray ws := by
  obtain ⟨ws, h1, _⟩ := default_weights_trapezoidal_rule
    ⟨1, PyWeights.none, false⟩ ⟨[[1, 2, 3], [4, 5, 6]], [0, 1, 3]⟩
    (⟨1, PyWeights.nparray [1/2, 3/2, 1], false⟩, ⟨[[1, 2, 3], [4, 5, 6]], [0, 1, 3]⟩)
    rfl (by norm_num)
    (by norm_num [fpcaGridFit, FDataGridState.nSamples, FDataGridState.nPoints,
      pyWeightsNot, trapezoidalWeights, npDiff, List.range_succ])
  exact ⟨ws, h1⟩

/-- C10 (counterexample).  The claim states that a second `fit` reuses the
stored weight vector unchanged.  Concretely: a first fit on three sample
points stores the numpy array `[1/2, 3/2, 1]` on the estimator; calling `fit`
again (here on two-point data) evaluates `not self.weights` on that
three-element numpy array, which raises the ambiguous-truth-value
`ValueError` instead of reusing the vector. -/
theorem grid_weights_cache_counterexample :
    fpcaGridFit ⟨1, PyWeights.none, false⟩ ⟨[[1, 2, 3], [4, 5, 6]], [0, 1, 3]⟩ =
      .ok (⟨1, PyWeights.nparray [1/2, 3/2, 1], false⟩,
        ⟨[[1, 2, 3], [4, 5, 6]], [0, 1, 3]⟩) ∧
    fpcaGridFit ⟨1, PyWeights.nparray [1/2, 3/2, 1], false⟩
        ⟨[[1, 2], [3, 4]], [0, 1]⟩ =
      .error (.valueError ambiguousTruthMessage) := by
  constructor
  · norm_num [fpcaGridFit, FDataGridState.nSamples, FDataGridState.nPoints,
      pyWeightsNot, trapezoidalWeights, npDiff, List.range_succ]
  · norm_num [fpcaGridFit, FDataGridState.nSamples, FDataGridState.nPoints,
      pyWeightsNot]

/-- C10 (amended).  What the code actually does: the default trapezoidal
weight vector is computed when the stored weights are unset and is stored on
the estimator instance as a numpy array; but a subsequent `fit` does not
reuse it — with the stored array holding at least two entries the truthiness
test `not self.weights` raises the ambiguous-truth-value `ValueError` (once
the new data passes the eager bound checks and shape unpacking), so the
cached vector is never silently applied to new data. -/
theorem grid_weights_cache_behavior
    (est est2 : FPCAGridEstimator) (X X2 : FDataGridState)
    (out : FPCAGridEstimator × FDataGridState) (ws2 : List ℚ) :
    (est.weights = PyWeights.none → fpcaGridFit est X = .ok out →
      ∃ ws, trapezoidalWeights X.samplePoints = .ok ws ∧
        out.1.weights = PyWeights.nparray ws) ∧
    (est2.weights = PyWeights.nparray ws2 → 2 ≤ ws2.length →
      est2.nComponents ≤ X2.nSamples → est2.nComponents ≤ X2.nPoints →
      X2.nSamples ≠ 1 → X2.nPoints ≠ 1 →
      fpcaGridFit est2 X2 = .error (.valueError ambiguousTruthMessage)) := by
  constructor
  · exact fun hnone hfit => fpcaGridFit_ok_weights est X out hnone hfit
  · intro hw hlen h1 h2 h3 h4
    unfold fpcaGridFit
    rw [if_neg (by omega), if_neg (by omega),
      if_neg (by rintro (h | h); exacts [h3 h, h4 h])]
    rw [hw]
    simp only [pyWeightsNot]
    rw [if_neg (by omega), if_neg (by omega)]

/-- C10 (witness for the amended theorem): concrete first fit storing
`[1/2, 3/2, 1]` and concrete second fit raising the ambiguity error. -/
theorem grid_weights_cache_behavior_witness :
    (∃ ws, trapezoidalWeights ([0, 1, 3] : List ℚ) = .ok ws ∧
      PyWeights.nparray [1/2, 3/2, 1] = PyWeights.nparray ws) ∧
    fpcaGridFit ⟨1, PyWeights.nparray [1/2, 3/2, 1], false⟩
        ⟨[[1, 2], [3, 4]], [0, 1]⟩ =
      .error (.valueError ambiguousTruthMessage) := by
  constructor
  · exact (grid_weights_cache_behavior
      ⟨1, PyWeights.none, false⟩ ⟨1, PyWeights.nparray [1/2, 3/2, 1], false⟩
      ⟨[[1, 2, 3], [4, 5, 6]], [0, 1, 3]⟩ ⟨[[1, 2], [3, 4]], [0, 1]⟩
      (⟨1, PyWeights.nparray [1/2, 3/2, 1], false⟩,
        ⟨[[1, 2, 3], [4, 5, 6]], [0, 1, 3]⟩)
      [1/2, 3/2, 1]).1 rfl
      (by norm_num [fpcaGridFit, FDataGridState.nSamples, FDataGridState.nPoints,
        pyWeightsNot, trapezoidalWeights, npDiff, List.range_succ])
  · exact (grid_weights_cache_behavior
      ⟨1, PyWeights.none, false⟩ ⟨1, PyWeights.nparray [1/2, 3/2, 1], false⟩
      ⟨[[1, 2, 3], [4, 5, 6]], [0, 1, 3]⟩ ⟨[[1, 2], [3, 4]], [0, 1]⟩
      (⟨1, PyWeights.nparray [1/2, 3/2, 1], false⟩,
        ⟨[[1, 2, 3], [4, 5, 6]], [0, 1, 3]⟩)
      [1/2, 3/2, 1]).2 rfl (by decide) (by decide) (by decide) (by decide) (by decide)

/-- C3 (code_bug evidence).  The `_Matrix` class defines no `hat_matrix`
attribute, so `_Matrix.transform` with `return_basis=False` — the
re-discretized hat-matrix form — raises `AttributeError` at `self.hat_matrix()`
instead of returning the smoothed grid (the method exists on the estimator,
as `estimator.hat_matrix`, but the code calls it on the solver object).  The
`return_basis=True` path does reuse the cached mapping matrix, multiplying
the new data by its transpose. -/
theorem matrix_method_hat_transform_crashes :
    matrixSolverAttributes.contains "hat_matrix" = false ∧
    (∀ (cached : Matrix (Fin 3) (Fin 5) ℚ) (dataM : Matrix (Fin 5) (Fin 1) ℚ),
      matrixMethodTransform false cached dataM =
        .error (.attributeError
          "\x27_Matrix\x27 object has no attribute \x27hat_matrix\x27")) ∧
    (∀ (cached : Matrix (Fin 3) (Fin 5) ℚ) (dataM : Matrix (Fin 5) (Fin 1) ℚ),
      matrixMethodTransform true cached dataM =
        .ok (.inl (dataMᵀ * cachedᵀ))) := by
  refine ⟨rfl, fun cached dataM => rfl, fun cached dataM => rfl⟩

/-- Helper: the weighted products built by the QR strategy assemble the same
normal-equation factors as the Cholesky strategy, given the
`scipy.linalg.cholesky` contract `Uᵀ U = W`. -/
theorem qrWeighted_normal {m k p : ℕ}
    (Φ : Matrix (Fin m) (Fin k) ℚ)
    (W U : Option (Matrix (Fin m) (Fin m) ℚ))
    (hWU : weightCholeskyContract W U)
    (A : Matrix (Fin m) (Fin p) ℚ) :
    (qrWeighted U Φ)ᵀ * qrWeighted U A = choleskyCommonMatrix Φ W * A := by
  rcases W with _ | Wv <;> rcases U with _ | Uv
  · rfl
  · exact absurd hWU (by simp [weightCholeskyContract])
  · exact absurd hWU (by simp [weightCholeskyContract])
  · have hWU' : Uvᵀ * Uv = Wv := hWU
    simp only [qrWeighted, choleskyCommonMatrix]
    rw [Matrix.transpose_mul, Matrix.mul_assoc, ← Matrix.mul_assoc Uvᵀ Uv A,
      hWU', ← Matrix.mul_assoc]

/-- Helper: the square of the penalty root rebuilds the penalty matrix, given
the `np.linalg.eigh` contract and nonnegative eigenvalues. -/
theorem qrPenaltyRoot_sq {k : ℕ}
    (P v : Matrix (Fin k) (Fin k) ℚ) (w sqrtw : Fin k → ℚ)
    (hP : P = v * Matrix.diagonal w * vᵀ)
    (hw : ∀ i, 0 ≤ w i)
    (hsq : ∀ i, sqrtw i * sqrtw i = max (w i) 0) :
    qrPenaltyRoot v sqrtw * (qrPenaltyRoot v sqrtw)ᵀ = P := by
  have hdw : Matrix.diagonal (fun i => sqrtw i * sqrtw i) = Matrix.diagonal w :=
    congrArg Matrix.diagonal
      (funext fun i => (hsq i).trans (max_eq_left (hw i)))
  simp only [qrPenaltyRoot]
  rw [Matrix.transpose_mul, Matrix.diagonal_transpose, Matrix.mul_assoc,
    ← Matrix.mul_assoc (Matrix.diagonal sqrtw) (Matrix.diagonal sqrtw) vᵀ,
    Matrix.diagonal_mul_diagonal, hdw, hP, Matrix.mul_assoc]

/-- C1.  Cross-solver consistency: for one configuration (basis evaluation
matrix `Φ`, optional weight matrix, penalty matrix, data) the three solver
strategies produce the same coefficient matrix.  The external routines enter
through their contracts: `scipy.linalg.cholesky` of the weights returns `U`
with `Uᵀ U = W`; `np.linalg.eigh` expresses the (symmetric, positive
semi-definite) penalty as `v diag(w) vᵀ` with `w ≥ 0` clipped by
`np.maximum`; `np.linalg.qr` factors the augmented matrix as `q r` with
orthonormal columns and invertible `r`; `cho_solve` and `np.linalg.solve`
return solutions of their linear systems.  `Cc`, `Cqr` are the (pre-transpose)
coefficient matrices of the Cholesky and QR strategies, and `M` the mapping
matrix cached by the matrix strategy; the code returns `Ccᵀ`, `Cqrᵀ` and
`dataᵀ Mᵀ`, which coincide — in exact arithmetic the tolerance is zero.
(When the penalty is zero, the code skips the augmentation; the lemma
`qr_skip_augmentation_covered` shows a factorization of the unaugmented
system yields one of the augmented system, with the same solution, so this
statement covers that branch too.) -/
theorem solver_strategies_agree {m k n : ℕ}
    (Φ : Matrix (Fin m) (Fin k) ℚ) (Y : Matrix (Fin m) (Fin n) ℚ)
    (W U : Option (Matrix (Fin m) (Fin m) ℚ))
    (P v : Matrix (Fin k) (Fin k) ℚ) (w sqrtw : Fin k → ℚ)
    (q : Matrix (Fin m ⊕ Fin k) (Fin k) ℚ) (r rInv : Matrix (Fin k) (Fin k) ℚ)
    (Cc Cqr : Matrix (Fin k) (Fin n) ℚ) (M : Matrix (Fin k) (Fin m) ℚ)
    (hWU : weightCholeskyContract W U)
    (hP : P = v * Matrix.diagonal w * vᵀ)
    (hw : ∀ i, 0 ≤ w i)
    (hsq : ∀ i, sqrtw i * sqrtw i = max (w i) 0)
    (hB : qrAugmentedBasis (qrWeighted U Φ) (qrPenaltyRoot v sqrtw) = q * r)
    (hq : qᵀ * q = 1)
    (hr : r * rInv = 1) (hr' : rInv * r = 1)
    (hCc : choleskyLeftMatrix Φ W P * Cc = choleskyRightMatrix Φ W Y)
    (hCqr : r * Cqr = qᵀ * qrPaddedData (qrWeighted U Y))
    (hM : choleskyLeftMatrix Φ W P * M = choleskyCommonMatrix Φ W) :
    Ccᵀ = Cqrᵀ ∧ Ccᵀ = matrixMethodCoefficients Y M := by
  have hBtB : (qrAugmentedBasis (qrWeighted U Φ) (qrPenaltyRoot v sqrtw))ᵀ *
      qrAugmentedBasis (qrWeighted U Φ) (qrPenaltyRoot v sqrtw) =
      choleskyLeftMatrix Φ W P := by
    simp only [qrAugmentedBasis]
    rw [Matrix.transpose_fromRows, Matrix.fromColumns_mul_fromRows,
      Matrix.transpose_transpose, qrWeighted_normal Φ W U hWU Φ,
      qrPenaltyRoot_sq P v w sqrtw hP hw hsq]
    rfl
  have hBtD : (qrAugmentedBasis (qrWeighted U Φ) (qrPenaltyRoot v sqrtw))ᵀ *
      qrPaddedData (qrWeighted U Y) = choleskyRightMatrix Φ W Y := by
    simp only [qrAugmentedBasis, qrPaddedData]
    rw [Matrix.transpose_fromRows, Matrix.fromColumns_mul_fromRows,
      Matrix.mul_zero, add_zero, qrWeighted_normal Φ W U hWU Y]
    rfl
  have hLrr : choleskyLeftMatrix Φ W P = rᵀ * r := by
    rw [← hBtB, hB, Matrix.transpose_mul, Matrix.mul_assoc,
      ← Matrix.mul_assoc qᵀ q r, hq, Matrix.one_mul]
  have hLCqr : choleskyLeftMatrix Φ W P * Cqr = choleskyRightMatrix Φ W Y := by
    rw [hLrr, Matrix.mul_assoc, hCqr, ← Matrix.mul_assoc,
      ← Matrix.transpose_mul, ← hB]
    exact hBtD
  have hinv : (rInv * rInvᵀ) * choleskyLeftMatrix Φ W P = 1 := by
    rw [hLrr, Matrix.mul_assoc, ← Matrix.mul_assoc rInvᵀ rᵀ r,
      ← Matrix.transpose_mul, hr, Matrix.transpose_one, Matrix.one_mul, hr']
  have hcancel : ∀ X1 X2 : Matrix (Fin k) (Fin n) ℚ,
      choleskyLeftMatrix Φ W P * X1 = choleskyLeftMatrix Φ W P * X2 →
      X1 = X2 := by
    intro X1 X2 h
    have h1 : (rInv * rInvᵀ) * (choleskyLeftMatrix Φ W P * X1) =
        (rInv * rInvᵀ) * (choleskyLeftMatrix Φ W P * X2) := by rw [h]
    rwa [← Matrix.mul_assoc, ← Matrix.mul_assoc, hinv, Matrix.one_mul,
      Matrix.one_mul] at h1
  have hCcCqr : Cc = Cqr := hcancel _ _ (hCc.trans hLCqr.symm)
  have hMY : choleskyLeftMatrix Φ W P * (M * Y) = choleskyRightMatrix Φ W Y := by
    rw [← Matrix.mul_assoc, hM]
    rfl
  have hMC : M * Y = Cc := hcancel _ _ (hMY.trans hCc.symm)
  refine ⟨congrArg Matrix.transpose hCcCqr, ?_⟩
  show Ccᵀ = matrixMethodCoefficients Y M
  simp only [matrixMethodCoefficients]
  rw [← hMC, Matrix.transpose_mul]

/-- Helper (coverage of the zero-penalty branch of `_QR.__call__`): when
`np.all(penalty_matrix == 0)` the code factors the unaugmented weighted basis
matrix.  Any factorization `Φw = q₀ r₀` with orthonormal `q₀` yields the
factorization `(fromRows q₀ 0) r₀` of the augmented matrix built with a zero
penalty root, still with orthonormal columns, and the right-hand side the
unaugmented solver uses (`q₀ᵀ Yw`) equals the one of the augmented system —
so the consistency statement, phrased over the augmented system, also covers
the skipped-augmentation branch. -/
theorem qr_skip_augmentation_covered {m k n : ℕ}
    (Φw : Matrix (Fin m) (Fin k) ℚ) (Yw : Matrix (Fin m) (Fin n) ℚ)
    (q₀ : Matrix (Fin m) (Fin k) ℚ) (r₀ : Matrix (Fin k) (Fin k) ℚ)
    (v : Matrix (Fin k) (Fin k) ℚ)
    (hB : Φw = q₀ * r₀) (hq : q₀ᵀ * q₀ = 1) :
    qrAugmentedBasis Φw (qrPenaltyRoot v fun _ => 0) =
      Matrix.fromRows q₀ (0 : Matrix (Fin k) (Fin k) ℚ) * r₀ ∧
    (Matrix.fromRows q₀ (0 : Matrix (Fin k) (Fin k) ℚ))ᵀ *
      Matrix.fromRows q₀ (0 : Matrix (Fin k) (Fin k) ℚ) = 1 ∧
    (Matrix.fromRows q₀ (0 : Matrix (Fin k) (Fin k) ℚ))ᵀ *
      qrPaddedData Yw = q₀ᵀ * Yw := by
  have hroot : qrPenaltyRoot v (fun _ => 0) = 0 := by
    simp only [qrPenaltyRoot, Matrix.diagonal_zero]
    exact Matrix.mul_zero v
  refine ⟨?_, ?_, ?_⟩
  · rw [hroot]
    simp only [qrAugmentedBasis, Matrix.transpose_zero]
    rw [Matrix.fromRows_mul, ← hB, Matrix.zero_mul]
  · rw [Matrix.transpose_fromRows, Matrix.fromColumns_mul_fromRows,
      Matrix.transpose_zero, Matrix.mul_zero, add_zero, hq]
  · simp only [qrPaddedData]
    rw [Matrix.transpose_fromRows, Matrix.fromColumns_mul_fromRows,
      Matrix.transpose_zero, Matrix.zero_mul, add_zero]

/-- C1 (witness): a concrete one-point, one-basis, one-sample configuration
with `Φ = [3]`, no weights, penalty `[16] = [1]·diag(16)·[1]ᵀ` (root 4),
augmented matrix `[3; 4] = q·r` with `q = [3/5; 4/5]`, `r = [5]`, data
`Y = [25]`: all three strategies yield the coefficient matrix `[3]`. -/
theorem solver_strategies_agree_witness :
    (!![(3 : ℚ)])ᵀ = (!![(3 : ℚ)])ᵀ ∧
    (!![(3 : ℚ)])ᵀ = matrixMethodCoefficients !![(25 : ℚ)] !![(3/25 : ℚ)] :=
  solver_strategies_agree !![(3 : ℚ)] !![(25 : ℚ)] Option.none Option.none
    !![(16 : ℚ)] !![(1 : ℚ)] (fun _ => 16) (fun _ => 4)
    (Matrix.fromRows !![(3/5 : ℚ)] !![(4/5 : ℚ)]) !![(5 : ℚ)] !![(1/5 : ℚ)]
    !![(3 : ℚ)] !![(3 : ℚ)] !![(3/25 : ℚ)]
    trivial
    (by
      ext i j
      fin_cases i
      fin_cases j
      norm_num [Matrix.mul_apply, Matrix.diagonal_apply, Fin.sum_univ_one])
    (fun i => by norm_num)
    (fun i => by norm_num)
    (by
      ext i j
      rcases i with i | i <;> fin_cases i <;> fin_cases j <;>
        norm_num [qrAugmentedBasis, qrWeighted, qrPenaltyRoot, Matrix.fromRows,
          Matrix.mul_apply, Matrix.diagonal_apply, Fin.sum_univ_one,
          Matrix.of_apply, Sum.elim_inl, Sum.elim_inr])
    (by
      ext i j
      fin_cases i
      fin_cases j
      norm_num [Matrix.mul_apply, Matrix.fromRows, Matrix.of_apply,
        Fintype.sum_sum_type, Fin.sum_univ_one, Matrix.one_apply])
    (by
      ext i j
      fin_cases i
      fin_cases j
      norm_num [Matrix.mul_apply, Fin.sum_univ_one, Matrix.one_apply])
    (by
      ext i j
      fin_cases i
      fin_cases j
      norm_num [Matrix.mul_apply, Fin.sum_univ_one, Matrix.one_apply])
    (by
      ext i j
      fin_cases i
      fin_cases j
      norm_num [choleskyLeftMatrix, choleskyRightMatrix, choleskyCommonMatrix,
        Matrix.mul_apply, Matrix.add_apply, Fin.sum_univ_one])
    (by
      ext i j
      fin_cases i
      fin_cases j
      norm_num [qrPaddedData, qrWeighted, Matrix.mul_apply, Matrix.fromRows,
        Matrix.of_apply, Fintype.sum_sum_type, Fin.sum_univ_one])
    (by
      ext i j
      fin_cases i
      fin_cases j
      norm_num [choleskyLeftMatrix, choleskyCommonMatrix,
        Matrix.mul_apply, Matrix.add_apply, Fin.sum_univ_one])
